import Mathlib

/-!
Verification development for the CodeGame go-server library (package `cg`).

The Go source is shallowly embedded: each definition below models one Go
function or type of the current revision of the repository (api.go, player.go,
event.go, the GameSocket file, the Server file and the Game file).  Byte
strings are modelled as lists of characters (`Bytes`); Go maps are modelled as
association lists with `alookup` / `ainsert` / `aerase`; goroutine launches,
locks, logging and author callbacks are elided where they do not touch the
state the claims are about (noted at each definition).
-/

deriving instance DecidableEq for Except

/-- Byte strings (Go `[]byte` / `string` contents) are modelled as lists of
characters. -/
abbrev Bytes := List Char

def strBytes (s : String) : Bytes := s.data

/-- JSON insignificant whitespace, as in Go `encoding/json` (`isSpace`). -/
def isWsChar (c : Char) : Bool := c = ' ' || c = '\t' || c = '\n' || c = '\r'

def wsTake : Bytes → Bytes
  | [] => []
  | c :: cs => if isWsChar c then c :: wsTake cs else []

def wsDrop : Bytes → Bytes
  | [] => []
  | c :: cs => if isWsChar c then wsDrop cs else c :: cs

def skipWs : Bytes → Bytes := wsDrop

/-- Characters that may occur in a JSON number token.  The Go scanner checks
the full number grammar; this model lexes the maximal run of number
characters, which is enough for the payloads the claims quantify over. -/
def isNumChar (c : Char) : Bool :=
  c.isDigit || c = '-' || c = '+' || c = '.' || c = 'e' || c = 'E'

def numTake : Bytes → Bytes
  | [] => []
  | c :: cs => if isNumChar c then c :: numTake cs else []

def numDrop : Bytes → Bytes
  | [] => []
  | c :: cs => if isNumChar c then numDrop cs else c :: cs

/-- Lowercase hex digit used by Go `encoding/json` escapes. -/
def hexDigitChar (n : Nat) : Char :=
  if n < 10 then Char.ofNat ('0'.toNat + n) else Char.ofNat ('a'.toNat + (n - 10))

/-- `compact` with `escapeHTML` set (the mode used by `json.Marshal`) rewrites
the characters `<`, `>`, `&`, U+2028 and U+2029 into `\u....` escapes wherever
they occur in the scanned bytes. -/
def escHtmlChar (c : Char) : Bytes :=
  if c = '<' then ['\\', 'u', '0', '0', '3', 'c']
  else if c = '>' then ['\\', 'u', '0', '0', '3', 'e']
  else if c = '&' then ['\\', 'u', '0', '0', '2', '6']
  else if c = '\u2028' then ['\\', 'u', '2', '0', '2', '8']
  else if c = '\u2029' then ['\\', 'u', '2', '0', '2', '9']
  else [c]

/-- Scan a JSON string body (the opening quote has been consumed).  Returns
the raw span including the closing quote, the compacted/escaped output, and
the unconsumed rest.  Escape sequences are passed through verbatim; the Go
scanner additionally validates them, which this model does not need for the
inputs the theorems quantify over. -/
def scanString : Bytes → Option (Bytes × Bytes × Bytes)
  | [] => none
  | c :: cs =>
    if c = '"' then some (['"'], ['"'], cs)
    else if c = '\\' then
      match cs with
      | [] => none
      | d :: cs2 =>
        match scanString cs2 with
        | none => none
        | some (sp, out, r) => some ('\\' :: d :: sp, '\\' :: d :: out, r)
    else
      match scanString cs with
      | none => none
      | some (sp, out, r) => some (c :: sp, escHtmlChar c ++ out, r)

mutual

/-- Fueled JSON value scanner, modelling the scanner inside Go
`encoding/json`'s `compact` (used by `json.Marshal` on a `json.RawMessage`)
and `Unmarshal`'s raw-value capture.  For an input beginning with one JSON
value it returns the raw span of that value, the compacted (whitespace-free,
HTML-escaped) output, and the rest of the input.  Call sites pass fuel
`scanFuel input`, which bounds the recursion depth. -/
def scanValue : Nat → Bytes → Option (Bytes × Bytes × Bytes)
  | 0, _ => none
  | _ + 1, [] => none
  | fuel + 1, c :: cs =>
    if c = '"' then
      match scanString cs with
      | none => none
      | some (sp, out, r) => some ('"' :: sp, '"' :: out, r)
    else if c = '\x7b' then
      match wsDrop cs with
      | '\x7d' :: r => some ('\x7b' :: wsTake cs ++ ['\x7d'], ['\x7b', '\x7d'], r)
      | cs1 =>
        match scanMembers fuel cs1 with
        | none => none
        | some (sp, out, r) => some ('\x7b' :: wsTake cs ++ sp, '\x7b' :: out, r)
    else if c = '[' then
      match wsDrop cs with
      | ']' :: r => some ('[' :: wsTake cs ++ [']'], ['[', ']'], r)
      | cs1 =>
        match scanElems fuel cs1 with
        | none => none
        | some (sp, out, r) => some ('[' :: wsTake cs ++ sp, '[' :: out, r)
    else if c = 't' then
      match cs with
      | 'r' :: 'u' :: 'e' :: r => some (['t', 'r', 'u', 'e'], ['t', 'r', 'u', 'e'], r)
      | _ => none
    else if c = 'f' then
      match cs with
      | 'a' :: 'l' :: 's' :: 'e' :: r =>
        some (['f', 'a', 'l', 's', 'e'], ['f', 'a', 'l', 's', 'e'], r)
      | _ => none
    else if c = 'n' then
      match cs with
      | 'u' :: 'l' :: 'l' :: r => some (['n', 'u', 'l', 'l'], ['n', 'u', 'l', 'l'], r)
      | _ => none
    else if isNumChar c then
      some (c :: numTake cs, c :: numTake cs, numDrop cs)
    else none

def scanElems : Nat → Bytes → Option (Bytes × Bytes × Bytes)
  | 0, _ => none
  | fuel + 1, cs =>
    match scanValue fuel cs with
    | none => none
    | some (sp, out, r) =>
      match wsDrop r with
      | ']' :: r2 => some (sp ++ wsTake r ++ [']'], out ++ [']'], r2)
      | ',' :: r2 =>
        match scanElems fuel (wsDrop r2) with
        | none => none
        | some (sp2, out2, r3) =>
          some (sp ++ wsTake r ++ ',' :: wsTake r2 ++ sp2, out ++ ',' :: out2, r3)
      | _ => none

def scanMembers : Nat → Bytes → Option (Bytes × Bytes × Bytes)
  | 0, _ => none
  | fuel + 1, cs =>
    match cs with
    | '"' :: cs1 =>
      match scanString cs1 with
      | none => none
      | some (ksp, kout, r1) =>
        match wsDrop r1 with
        | ':' :: r2 =>
          match scanValue fuel (wsDrop r2) with
          | none => none
          | some (vsp, vout, r3) =>
            match wsDrop r3 with
            | '\x7d' :: r4 =>
              some ('"' :: ksp ++ wsTake r1 ++ ':' :: wsTake r2 ++ vsp ++ wsTake r3 ++ ['\x7d'],
                '"' :: kout ++ ':' :: vout ++ ['\x7d'], r4)
            | ',' :: r4 =>
              match scanMembers fuel (wsDrop r4) with
              | none => none
              | some (sp2, out2, r5) =>
                some ('"' :: ksp ++ wsTake r1 ++ ':' :: wsTake r2 ++ vsp ++ wsTake r3 ++
                    ',' :: wsTake r4 ++ sp2,
                  '"' :: kout ++ ':' :: vout ++ ',' :: out2, r5)
            | _ => none
        | _ => none
    | _ => none

end

/-- Fuel that always suffices for a complete scan of `cs`. -/
def scanFuel (cs : Bytes) : Nat := 2 * cs.length + 2

/-- One character of Go `encoding/json` string escaping (`encodeState.string`
with HTML escaping on): `"` `\` `\n` `\r` `\t` get two-character escapes,
other control characters and `<` `>` `&` get `\u00xx`, U+2028/U+2029 get
`\u202x`, everything else is emitted verbatim. -/
def escapeChar (c : Char) : Bytes :=
  if c = '"' then ['\\', '"']
  else if c = '\\' then ['\\', '\\']
  else if c = '\n' then ['\\', 'n']
  else if c = '\r' then ['\\', 'r']
  else if c = '\t' then ['\\', 't']
  else if c = '<' ∨ c = '>' ∨ c = '&' ∨ c.toNat < 32 then
    ['\\', 'u', '0', '0', hexDigitChar (c.toNat / 16), hexDigitChar (c.toNat % 16)]
  else if c = '\u2028' then ['\\', 'u', '2', '0', '2', '8']
  else if c = '\u2029' then ['\\', 'u', '2', '0', '2', '9']
  else [c]

def escapeString : Bytes → Bytes
  | [] => []
  | c :: cs => escapeChar c ++ escapeString cs

/-- Models `json.Marshal(Event{Name: name, Data: pay})` from event.go: the
struct is encoded as an object with the `name` string (escaped) and the
`data` field holding the `json.RawMessage` payload, which the encoder runs
through `compact` (validating it and stripping insignificant whitespace).
An invalid payload makes `Marshal` return an error (`none`). -/
def marshalEvent (name pay : Bytes) : Option Bytes :=
  match scanValue (scanFuel pay) (skipWs pay) with
  | none => none
  | some (_, out, rest) =>
    if skipWs rest = ([] : Bytes) then
      some ('\x7b' :: '"' :: 'n' :: 'a' :: 'm' :: 'e' :: '"' :: ':' :: '"' ::
        escapeString name ++ '"' :: ',' :: '"' :: 'd' :: 'a' :: 't' :: 'a' :: '"' :: ':' ::
        out ++ ['\x7d'])
    else none

def hexVal (c : Char) : Option Nat :=
  if c.isDigit then some (c.toNat - '0'.toNat)
  else if 'a'.toNat ≤ c.toNat ∧ c.toNat ≤ 'f'.toNat then some (c.toNat - 'a'.toNat + 10)
  else if 'A'.toNat ≤ c.toNat ∧ c.toNat ≤ 'F'.toNat then some (c.toNat - 'A'.toNat + 10)
  else none

/-- Resolution of a two-character escape `\d` in a Go JSON string. -/
def escCode (d : Char) : Option Char :=
  if d = '"' then some '"'
  else if d = '\\' then some '\\'
  else if d = '/' then some '/'
  else if d = 'b' then some '\x08'
  else if d = 'f' then some '\x0c'
  else if d = 'n' then some '\n'
  else if d = 'r' then some '\r'
  else if d = 't' then some '\t'
  else none

/-- Value of a `\uXXXX` escape from its four hex digits. -/
def hexQuadVal (h1 h2 h3 h4 : Char) : Option Char :=
  match hexVal h1, hexVal h2, hexVal h3, hexVal h4 with
  | some a, some b, some x, some y =>
    some (Char.ofNat (((a * 16 + b) * 16 + x) * 16 + y))
  | _, _, _, _ => none

/-- Go JSON string unescaping (`unquote`), as used by `Unmarshal` when filling
the `Name string` field: reads characters up to the closing quote, resolving
backslash escapes.  Surrogate-pair recombination is not modelled (the encoder
never emits surrogate escapes). -/
def unescapeString : Bytes → Option (Bytes × Bytes)
  | [] => none
  | c :: cs =>
    if c = '"' then some ([], cs)
    else if c = '\\' then
      match cs with
      | [] => none
      | d :: cs2 =>
        if d = 'u' then
          match cs2 with
          | h1 :: h2 :: h3 :: h4 :: cs3 =>
            match hexQuadVal h1 h2 h3 h4 with
            | none => none
            | some e => (unescapeString cs3).map (fun p => (e :: p.1, p.2))
          | _ => none
        else
          match escCode d with
          | none => none
          | some e => (unescapeString cs2).map (fun p => (e :: p.1, p.2))
    else (unescapeString cs).map (fun p => (c :: p.1, p.2))

/-- Model of Go `Command` (event.go): `Name` string, `Data` raw JSON bytes. -/
structure CommandM where
  name : Bytes
  data : Bytes
deriving DecidableEq

mutual

/-- Field loop of `json.Unmarshal(msg, &cmd)` for the `Command` struct: each
member is a string key, then `:`, then a value; the `name` key must hold a
JSON string (unescaped into `Name`), the `data` key is captured as the raw
span of its value (`json.RawMessage`), unknown keys are skipped. -/
def decodeFields : Nat → Bytes → Bytes → Bytes → Option CommandM
  | 0, _, _, _ => none
  | fuel + 1, cs, accName, accData =>
    match skipWs cs with
    | '"' :: cs1 =>
      match unescapeString cs1 with
      | none => none
      | some (key, r1) =>
        match skipWs r1 with
        | ':' :: r2 =>
          if key = strBytes "name" then
            match skipWs r2 with
            | '"' :: r4 =>
              match unescapeString r4 with
              | none => none
              | some (nm, r5) => decodeAfterMember fuel r5 nm accData
            | _ => none
          else
            match scanValue (scanFuel (skipWs r2)) (skipWs r2) with
            | none => none
            | some (sp, _, r5) =>
              if key = strBytes "data" then decodeAfterMember fuel r5 accName sp
              else decodeAfterMember fuel r5 accName accData
        | _ => none
    | _ => none

/-- After a member: a comma continues the field loop, a closing brace ends the
object (trailing content other than whitespace makes `Unmarshal` fail). -/
def decodeAfterMember : Nat → Bytes → Bytes → Bytes → Option CommandM
  | 0, _, _, _ => none
  | fuel + 1, cs, accName, accData =>
    match skipWs cs with
    | ',' :: r => decodeFields fuel r accName accData
    | '\x7d' :: r =>
      if skipWs r = ([] : Bytes) then some { name := accName, data := accData } else none
    | _ => none

end

/-- Models `json.Unmarshal(msg, &cmd)` for a `Command`: the top-level value
must be an object; absent fields keep the zero value (`Name` empty, `Data`
nil, modelled as `[]`). -/
def decodeCommand (msg : Bytes) : Option CommandM :=
  match skipWs msg with
  | '\x7b' :: cs =>
    match skipWs cs with
    | '\x7d' :: r =>
      if skipWs r = ([] : Bytes) then some { name := [], data := [] } else none
    | _ => decodeFields (msg.length + 1) cs [] []
  | _ => none

inductive MsgKind
  | text
  | binary
deriving DecidableEq

inductive SockErr
  | invalidMessageType
  | decodeFailed
deriving DecidableEq

/-- Models `GameSocket.receiveCommand` after a successful frame read: non-text
frames yield `ErrInvalidMessageType`; a failed decode or an empty `name`
yields `ErrDecodeFailed`. -/
def receiveCommandM (kind : MsgKind) (msg : Bytes) : Except SockErr CommandM :=
  if kind ≠ MsgKind.text then Except.error SockErr.invalidMessageType
  else
    match decodeCommand msg with
    | none => Except.error SockErr.decodeFailed
    | some cmd =>
      if cmd.name = ([] : Bytes) then Except.error SockErr.decodeFailed
      else Except.ok cmd

theorem strBytes_name : strBytes "name" = ['n', 'a', 'm', 'e'] := rfl

theorem strBytes_data : strBytes "data" = ['d', 'a', 't', 'a'] := rfl

theorem unescapeString_quote (r : Bytes) : unescapeString ('"' :: r) = some ([], r) := by
  rw [unescapeString.eq_def]
  simp

theorem unescapeString_cons (c : Char) (cs : Bytes) (hq : c ≠ '"') (hb : c ≠ '\\') :
    unescapeString (c :: cs) = (unescapeString cs).map (fun p => (c :: p.1, p.2)) := by
  rw [unescapeString.eq_def]
  simp [hq, hb]

theorem unescapeString_esc (d e : Char) (cs2 : Bytes) (hdu : d ≠ 'u')
    (hcode : escCode d = some e) :
    unescapeString ('\\' :: d :: cs2) = (unescapeString cs2).map (fun p => (e :: p.1, p.2)) := by
  rw [unescapeString.eq_def]
  simp [hdu, hcode]

theorem unescapeString_u (h1 h2 h3 h4 e : Char) (cs3 : Bytes)
    (hv : hexQuadVal h1 h2 h3 h4 = some e) :
    unescapeString ('\\' :: 'u' :: h1 :: h2 :: h3 :: h4 :: cs3) =
      (unescapeString cs3).map (fun p => (e :: p.1, p.2)) := by
  rw [unescapeString.eq_def]
  simp [hv]

theorem hexVal_hexDigitChar (n : Nat) (h : n < 16) : hexVal (hexDigitChar n) = some n := by
  interval_cases n <;> decide

theorem unescape_escapeChar (c : Char) (tail : Bytes) :
    unescapeString (escapeChar c ++ tail) =
      (unescapeString tail).map (fun p => (c :: p.1, p.2)) := by
  by_cases hq : c = '"'
  · subst hq
    rw [show escapeChar '"' = ['\\', '"'] from by decide]
    simp only [List.cons_append, List.nil_append]
    exact unescapeString_esc '"' '"' tail (by decide) (by decide)
  by_cases hb : c = '\\'
  · subst hb
    rw [show escapeChar '\\' = ['\\', '\\'] from by decide]
    simp only [List.cons_append, List.nil_append]
    exact unescapeString_esc '\\' '\\' tail (by decide) (by decide)
  by_cases hn : c = '\n'
  · subst hn
    rw [show escapeChar '\n' = ['\\', 'n'] from by decide]
    simp only [List.cons_append, List.nil_append]
    exact unescapeString_esc 'n' '\n' tail (by decide) (by decide)
  by_cases hr : c = '\r'
  · subst hr
    rw [show escapeChar '\r' = ['\\', 'r'] from by decide]
    simp only [List.cons_append, List.nil_append]
    exact unescapeString_esc 'r' '\r' tail (by decide) (by decide)
  by_cases ht : c = '\t'
  · subst ht
    rw [show escapeChar '\t' = ['\\', 't'] from by decide]
    simp only [List.cons_append, List.nil_append]
    exact unescapeString_esc 't' '\t' tail (by decide) (by decide)
  by_cases hctl : c = '<' ∨ c = '>' ∨ c = '&' ∨ c.toNat < 32
  · have hesc : escapeChar c =
        ['\\', 'u', '0', '0', hexDigitChar (c.toNat / 16), hexDigitChar (c.toNat % 16)] := by
      simp [escapeChar, hq, hb, hn, hr, ht, hctl]
    have hlt : c.toNat < 256 := by
      rcases hctl with h | h | h | h
      · subst h; decide
      · subst h; decide
      · subst h; decide
      · omega
    have e1 : hexVal '0' = some 0 := by decide
    have e2 := hexVal_hexDigitChar (c.toNat / 16) (by omega)
    have e3 := hexVal_hexDigitChar (c.toNat % 16) (by omega)
    have hv : hexQuadVal '0' '0' (hexDigitChar (c.toNat / 16))
        (hexDigitChar (c.toNat % 16)) = some c := by
      simp only [hexQuadVal, e1, e2, e3]
      rw [show ((0 * 16 + 0) * 16 + c.toNat / 16) * 16 + c.toNat % 16 = c.toNat from by omega]
      rw [Char.ofNat_toNat]
    rw [hesc]
    simp only [List.cons_append, List.nil_append]
    exact unescapeString_u '0' '0' (hexDigitChar (c.toNat / 16))
      (hexDigitChar (c.toNat % 16)) c tail hv
  by_cases h28 : c = '\u2028'
  · subst h28
    rw [show escapeChar '\u2028' = ['\\', 'u', '2', '0', '2', '8'] from by decide]
    simp only [List.cons_append, List.nil_append]
    exact unescapeString_u '2' '0' '2' '8' '\u2028' tail (by decide)
  by_cases h29 : c = '\u2029'
  · subst h29
    rw [show escapeChar '\u2029' = ['\\', 'u', '2', '0', '2', '9'] from by decide]
    simp only [List.cons_append, List.nil_append]
    exact unescapeString_u '2' '0' '2' '9' '\u2029' tail (by decide)
  · have hesc : escapeChar c = [c] := by
      simp [escapeChar, hq, hb, hn, hr, ht, hctl, h28, h29]
    rw [hesc]
    simp only [List.cons_append, List.nil_append]
    exact unescapeString_cons c tail hq hb

theorem unescape_escapeString (nm : Bytes) (rest : Bytes) :
    unescapeString (escapeString nm ++ '"' :: rest) = some (nm, rest) := by
  induction nm with
  | nil => simpa using unescapeString_quote rest
  | cons c t ih =>
    rw [show escapeString (c :: t) = escapeChar c ++ escapeString t from rfl,
      List.append_assoc, unescape_escapeChar c (escapeString t ++ '"' :: rest), ih]
    rfl

theorem wsDrop_cons (c : Char) (cs : Bytes) (h : isWsChar c = false) :
    wsDrop (c :: cs) = c :: cs := by
  rw [wsDrop]
  simp [h]

theorem decode_envelope_fields (f : Nat) (name pay : Bytes)
    (h2 : scanValue (scanFuel (wsDrop (pay ++ ['\x7d']))) (wsDrop (pay ++ ['\x7d'])) =
      some (pay, pay, ['\x7d'])) :
    decodeFields (f + 4)
      ('"' :: 'n' :: 'a' :: 'm' :: 'e' :: '"' :: ':' :: '"' ::
        (escapeString name ++ '"' :: ',' :: '"' :: 'd' :: 'a' :: 't' :: 'a' :: '"' :: ':' ::
          (pay ++ ['\x7d']))) [] [] = some { name := name, data := pay } := by
  simp [decodeFields, decodeAfterMember, skipWs, wsDrop, isWsChar,
    unescapeString_cons, unescapeString_quote, unescape_escapeString name,
    strBytes_name, strBytes_data, h2]

theorem skipWs_nil : skipWs [] = [] := rfl

theorem marshalEvent_canonical (name pay : Bytes)
    (h1 : scanValue (scanFuel pay) (skipWs pay) = some (pay, pay, [])) :
    marshalEvent name pay =
      some ('\x7b' :: '"' :: 'n' :: 'a' :: 'm' :: 'e' :: '"' :: ':' :: '"' ::
        (escapeString name ++ '"' :: ',' :: '"' :: 'd' :: 'a' :: 't' :: 'a' :: '"' :: ':' ::
          (pay ++ ['\x7d']))) := by
  simp [marshalEvent, h1, skipWs_nil]

theorem decodeFields_envelope (fuel : Nat) (h4 : 4 ≤ fuel) (name pay : Bytes)
    (h2 : scanValue (scanFuel (wsDrop (pay ++ ['\x7d']))) (wsDrop (pay ++ ['\x7d'])) =
      some (pay, pay, ['\x7d'])) :
    decodeFields fuel
      ('"' :: 'n' :: 'a' :: 'm' :: 'e' :: '"' :: ':' :: '"' ::
        (escapeString name ++ '"' :: ',' :: '"' :: 'd' :: 'a' :: 't' :: 'a' :: '"' :: ':' ::
          (pay ++ ['\x7d']))) [] [] = some { name := name, data := pay } := by
  obtain ⟨f, rfl⟩ : ∃ f, fuel = f + 4 := ⟨fuel - 4, by omega⟩
  exact decode_envelope_fields f name pay h2

/-- Claim C8 (amended): decoding the JSON produced by encoding an envelope
with non-empty `name` recovers the same `name` — for every name, since the
encoder's string escaping is exactly inverted by the decoder's unescaping —
and a `data` byte-equal to the input payload provided the payload is in
canonical compact form, i.e. the JSON scanner consumes it entirely and
reproduces it unchanged (no insignificant whitespace, no characters that
`compact` would escape).  In general the recovered `data` is the compacted
payload, which differs from a non-canonical input payload (see the
counterexample). -/
theorem event_codec_roundtrip (name pay : Bytes)
    (hname : name ≠ [])
    (h1 : scanValue (scanFuel pay) (skipWs pay) = some (pay, pay, []))
    (h2 : scanValue (scanFuel (skipWs (pay ++ ['\x7d']))) (skipWs (pay ++ ['\x7d'])) =
      some (pay, pay, ['\x7d'])) :
    ∃ frame, marshalEvent name pay = some frame ∧
      receiveCommandM MsgKind.text frame = Except.ok { name := name, data := pay } := by
  refine ⟨_, marshalEvent_canonical name pay h1, ?_⟩
  have hdec : decodeCommand ('\x7b' :: '"' :: 'n' :: 'a' :: 'm' :: 'e' :: '"' :: ':' :: '"' ::
      (escapeString name ++ '"' :: ',' :: '"' :: 'd' :: 'a' :: 't' :: 'a' :: '"' :: ':' ::
        (pay ++ ['\x7d']))) = some { name := name, data := pay } := by
    simp [decodeCommand, skipWs, wsDrop, isWsChar]
    exact decodeFields_envelope _ (by omega) name pay (by simpa [skipWs] using h2)
  simp [receiveCommandM, hdec, hname]

/-- Claim C8 counterexample: for the valid JSON payload `[1, 2]` (with a
space), encoding the envelope and decoding it back yields the compacted
payload `[1,2]`, which is not byte-equal to the input payload — refuting the
claim as stated for arbitrary valid JSON payloads. -/
theorem event_codec_roundtrip_counterexample :
    ∃ frame cmd, marshalEvent (strBytes "x") (strBytes "[1, 2]") = some frame ∧
      receiveCommandM MsgKind.text frame = Except.ok cmd ∧
      cmd.name = strBytes "x" ∧ cmd.data ≠ strBytes "[1, 2]" := by
  refine ⟨strBytes "\x7b\"name\":\"x\",\"data\":[1,2]\x7d",
    { name := strBytes "x", data := strBytes "[1,2]" }, by decide, by decide, by decide, by decide⟩

/-- Claim C8 witness: the amended round-trip instantiated at the concrete
envelope name `a<b` — whose `<` the encoder escapes as a `\u003c` sequence
and the decoder recovers — with canonical payload `[1,2]`. -/
theorem event_codec_roundtrip_witness :
    ((strBytes "a<b" : Bytes) ≠ [] ∧
      scanValue (scanFuel (strBytes "[1,2]")) (skipWs (strBytes "[1,2]")) =
        some (strBytes "[1,2]", strBytes "[1,2]", [])) ∧
    ∃ frame, marshalEvent (strBytes "a<b") (strBytes "[1,2]") = some frame ∧
      receiveCommandM MsgKind.text frame =
        Except.ok { name := strBytes "a<b", data := strBytes "[1,2]" } :=
  ⟨⟨by decide, by decide⟩,
    event_codec_roundtrip (strBytes "a<b") (strBytes "[1,2]")
      (by decide) (by decide) (by decide)⟩

/-- Association-list lookup, modelling Go map indexing `m[k]`. -/
def alookup {α : Type} : List (String × α) → String → Option α
  | [], _ => none
  | (k, v) :: t, key => if k = key then some v else alookup t key

/-- Association-list insert-or-replace, modelling Go map assignment
`m[k] = v`. -/
def ainsert {α : Type} : List (String × α) → String → α → List (String × α)
  | [], key, v => [(key, v)]
  | (k, w) :: t, key, v =>
    if k = key then (k, v) :: t else (k, w) :: ainsert t key v

/-- Association-list removal, modelling Go `delete(m, k)`. -/
def aerase {α : Type} : List (String × α) → String → List (String × α)
  | [], _ => []
  | (k, w) :: t, key => if k = key then t else (k, w) :: aerase t key

/-- The underlying websocket connection of a `GameSocket`: whether frame
writes currently fail, the frames successfully written, the frames whose
write was attempted, and whether the link has been closed. -/
structure Conn where
  writeFails : Bool
  written : List Bytes
  attempted : List Bytes
  closed : Bool
deriving DecidableEq

/-- State of the `done` channel of a `GameSocket`: `unmade` models the nil
channel before `handleConnection` runs `s.done = make(chan struct\x7b\x7d)`,
`opened` a live channel, `closedSig` a closed one. -/
inductive ChanSig
  | unmade
  | opened
  | closedSig
deriving DecidableEq

/-- Go run-time panics relevant to the model: `close` of a closed channel and
`close` of a nil channel. -/
inductive GoPanic
  | closeOfClosedChannel
  | closeOfNilChannel
deriving DecidableEq

/-- Model of `GameSocket` (player/spectator connection). -/
structure GameSocket where
  id : String
  conn : Conn
  done : ChanSig
deriving DecidableEq

/-- Models the internal `GameSocket.send`: set the write deadline (elided)
and `conn.WriteMessage(websocket.TextMessage, message)`, which returns an
error exactly when the underlying write fails. -/
def sendFrame (s : GameSocket) (msg : Bytes) : GameSocket × Option String :=
  let conn1 := { s.conn with attempted := s.conn.attempted ++ [msg] }
  if s.conn.writeFails || s.conn.closed then
    ({ s with conn := conn1 }, some "write failed")
  else
    ({ s with conn := { conn1 with written := s.conn.written ++ [msg] } }, none)

/-- Models `GameSocket.disconnect`: `close(s.done)` — which is a Go run-time
panic if `done` is nil or already closed — then a close control frame with a
5 second deadline (elided) and `conn.Close()`. -/
def GameSocket.disconnectM (s : GameSocket) : Except GoPanic GameSocket :=
  match s.done with
  | ChanSig.unmade => Except.error GoPanic.closeOfNilChannel
  | ChanSig.closedSig => Except.error GoPanic.closeOfClosedChannel
  | ChanSig.opened =>
    Except.ok { s with done := ChanSig.closedSig, conn := { s.conn with closed := true } }

/-- Go values passed as the `data any` argument of `Send`.  `json.Marshal`
fails on values such as channels (`vchan`); the other constructors marshal to
their JSON text. -/
inductive GoValue
  | vnull
  | vbool (b : Bool)
  | vnat (n : Nat)
  | vstr (s : String)
  | vchan
deriving DecidableEq

/-- Models `json.Marshal(obj)` on a `GoValue` (the `Event.marshalData` step):
`none` is the marshal error for unsupported types. -/
def encodeGoValue : GoValue → Option Bytes
  | GoValue.vnull => some (strBytes "null")
  | GoValue.vbool true => some (strBytes "true")
  | GoValue.vbool false => some (strBytes "false")
  | GoValue.vnat n => some (strBytes (Nat.repr n))
  | GoValue.vstr s => some ('"' :: escapeString s.data ++ ['"'])
  | GoValue.vchan => none

/-- The full encoding pipeline of `Player.Send` / `GameSocket.Send`:
`e.marshalData(data)` followed by `json.Marshal(e)`. -/
def marshalEventData (name : String) (d : GoValue) : Option Bytes :=
  match encodeGoValue d with
  | none => none
  | some pay => marshalEvent name.data pay

/-- Model of `Player` (player.go, current revision): identity, sockets map
with its counter, the `lastConnection` stamp and the missed-events queue. -/
structure PlayerM where
  id : String
  username : String
  secret : String
  sockets : List (String × GameSocket)
  socketCount : Nat
  lastConnection : Nat
  missedEvents : List Bytes
deriving DecidableEq

/-- The socket loop inside `Player.sendEncoded`: write the frame to every
socket in order, returning on the first write error (later sockets are not
written). -/
def sendToSockets : List (String × GameSocket) → Bytes →
    List (String × GameSocket) × Option String
  | [], _ => ([], none)
  | (k, s) :: t, msg =>
    match sendFrame s msg with
    | (s2, some e) => ((k, s2) :: t, some e)
    | (s2, none) =>
      match sendToSockets t msg with
      | (t2, r) => ((k, s2) :: t2, r)

/-- Models `Player.sendEncoded` (player.go): write the encoded frame to every
socket; if there are no sockets, append the frame to `missedEvents`. -/
def sendEncodedM (p : PlayerM) (data : Bytes) : PlayerM × Option String :=
  match sendToSockets p.sockets data with
  | (ss, some e) => ({ p with sockets := ss }, some e)
  | (ss, none) =>
    if p.sockets.length = 0 then
      ({ p with sockets := ss, missedEvents := p.missedEvents ++ [data] }, none)
    else ({ p with sockets := ss }, none)

/-- Models `Player.Send` (player.go): marshal the event data, marshal the
event, then `sendEncoded`; each marshal error returns early leaving the
player untouched (the `Log.TraceData` call is elided). -/
def PlayerM.sendM (p : PlayerM) (name : String) (d : GoValue) :
    PlayerM × Option String :=
  match encodeGoValue d with
  | none => (p, some "json: unsupported type")
  | some pay =>
    match marshalEvent name.data pay with
    | none => (p, some "json: marshal error")
    | some frame => sendEncodedM p frame

/-- The drain loop inside `Player.addSocket`: send every missed event to the
new socket, ignoring send errors. -/
def drainInto (sk : GameSocket) (events : List Bytes) : GameSocket :=
  events.foldl (fun s e => (sendFrame s e).1) sk

/-- Configuration fields of `ServerConfig` read by the modelled operations. -/
structure ServerConfig where
  maxSocketsPerPlayer : Nat
  maxPlayersPerGame : Nat
  maxSpectatorsPerGame : Nat
  maxGames : Nat
  deleteInactiveGameDelay : Nat
  kickInactivePlayerDelay : Nat
deriving DecidableEq

/-- Models `Player.addSocket` (player.go): reject when the socket cap is
reached; otherwise insert the socket, increment `socketCount`, and under the
missed-events lock drain `missedEvents` in order into the new socket
(tolerating send failures) and clear the buffer.  Go stores the socket
pointer and then drains through that same pointer; functionally the drained
socket is stored. -/
def addSocketM (cfg : ServerConfig) (p : PlayerM) (sk : GameSocket) :
    PlayerM × Option String :=
  if cfg.maxSocketsPerPlayer > 0 ∧ p.socketCount ≥ cfg.maxSocketsPerPlayer then
    (p, some "max socket count reached for this player")
  else
    let sk2 := if p.missedEvents.length > 0 then drainInto sk p.missedEvents else sk
    let missed2 := if p.missedEvents.length > 0 then [] else p.missedEvents
    ({ p with
        sockets := ainsert p.sockets sk.id sk2
        socketCount := p.socketCount + 1
        missedEvents := missed2 }, none)

/-- Models `Player.disconnectSocket` (player.go): if the id is present,
disconnect that socket, remove it from the map, decrement `socketCount` and
stamp `lastConnection`; an unknown id changes nothing.  (The found socket's
own `disconnect()` panic behavior is modelled by `GameSocket.disconnectM`.) -/
def disconnectSocketM (p : PlayerM) (sid : String) (now : Nat) : PlayerM :=
  match alookup p.sockets sid with
  | none => p
  | some _ =>
    { p with
        sockets := aerase p.sockets sid
        socketCount := p.socketCount - 1
        lastConnection := now }

/-- Models the public `GameSocket.Send` (the GameSocket file): marshal the
data and the event; on success call `s.send(jsonData)` with the returned
write error discarded, and return nil. -/
def GameSocket.sendEventM (s : GameSocket) (name : String) (d : GoValue) :
    GameSocket × Option String :=
  match encodeGoValue d with
  | none => (s, some "json: unsupported type")
  | some pay =>
    match marshalEvent name.data pay with
    | none => (s, some "json: marshal error")
    | some frame => ((sendFrame s frame).1, none)

def sampleConn : Conn := { writeFails := false, written := [], attempted := [], closed := false }

def sampleSocket : GameSocket := { id := "s1", conn := sampleConn, done := ChanSig.opened }

def samplePlayer : PlayerM :=
  { id := "p1", username := "alice", secret := "sec", sockets := [("s1", sampleSocket)],
    socketCount := 1, lastConnection := 0, missedEvents := [] }

/-- Claim C9: on an encoding failure `Player.Send` returns an error and the
player is entirely unchanged. -/
theorem player_send_atomic_on_encode_failure (p : PlayerM) (name : String) (d : GoValue)
    (h : encodeGoValue d = none) :
    p.sendM name d = (p, some "json: unsupported type") := by
  simp [PlayerM.sendM, h]

/-- Claim C9 witness: a channel value cannot be marshalled; `Send` on the
sample player fails and leaves it unchanged. -/
theorem player_send_atomic_on_encode_failure_witness :
    encodeGoValue GoValue.vchan = none ∧
    samplePlayer.sendM "x" GoValue.vchan = (samplePlayer, some "json: unsupported type") :=
  ⟨rfl, player_send_atomic_on_encode_failure samplePlayer "x" GoValue.vchan rfl⟩

/-- Claim C10: when encoding succeeds, the public `GameSocket.Send` returns
nil even when the underlying frame write fails: the write error is discarded
(the state is that of the attempted write, and on a failing connection the
internal `send` did return an error). -/
theorem socket_send_discards_write_error (s : GameSocket) (name : String) (d : GoValue)
    (pay frame : Bytes) (h1 : encodeGoValue d = some pay)
    (h2 : marshalEvent name.data pay = some frame) :
    (s.sendEventM name d).2 = none ∧
    (s.sendEventM name d).1 = (sendFrame s frame).1 ∧
    (s.conn.writeFails = true → (sendFrame s frame).2 = some "write failed") := by
  refine ⟨?_, ?_, fun hw => ?_⟩
  · simp [GameSocket.sendEventM, h1, h2]
  · simp [GameSocket.sendEventM, h1, h2]
  · simp [sendFrame, hw]

def failConn : Conn := { writeFails := true, written := [], attempted := [], closed := false }

def failSocket : GameSocket := { id := "s2", conn := failConn, done := ChanSig.opened }

/-- Claim C10 witness: concrete socket whose writes fail; `Send` still
returns nil while the internal write returned an error. -/
theorem socket_send_discards_write_error_witness :
    encodeGoValue GoValue.vnull = some (strBytes "null") ∧
    marshalEvent (strBytes "x") (strBytes "null") =
      some (strBytes "\x7b\"name\":\"x\",\"data\":null\x7d") ∧
    ((failSocket.sendEventM "x" GoValue.vnull).2 = none ∧
      (failSocket.sendEventM "x" GoValue.vnull).1 =
        (sendFrame failSocket (strBytes "\x7b\"name\":\"x\",\"data\":null\x7d")).1 ∧
      (failSocket.conn.writeFails = true →
        (sendFrame failSocket (strBytes "\x7b\"name\":\"x\",\"data\":null\x7d")).2 =
          some "write failed")) :=
  ⟨by decide, by decide,
    socket_send_discards_write_error failSocket "x" GoValue.vnull
      (strBytes "null") (strBytes "\x7b\"name\":\"x\",\"data\":null\x7d")
      (by decide) (by decide)⟩

/-- Claim C3: `GameSocket.disconnect` is claimed idempotent, but a second
call reaches `close(s.done)` on an already-closed channel, which panics at
run time in Go — the second call is not a no-op. -/
theorem gameSocket_disconnect_second_call_panics :
    ∃ s1, sampleSocket.disconnectM = Except.ok s1 ∧
      s1.disconnectM = Except.error GoPanic.closeOfClosedChannel := by
  exact ⟨_, rfl, rfl⟩

theorem sendM_offline_step (p : PlayerM) (name : String) (d : GoValue) (frame : Bytes)
    (hs : p.sockets = []) (hf : marshalEventData name d = some frame) :
    p.sendM name d = ({ p with missedEvents := p.missedEvents ++ [frame] }, none) := by
  rw [marshalEventData] at hf
  cases hpay : encodeGoValue d with
  | none => simp [hpay] at hf
  | some pay =>
    rw [hpay] at hf
    have hf2 : marshalEvent name.data pay = some frame := hf
    simp [PlayerM.sendM, hpay, hf2, sendEncodedM, hs, sendToSockets]

theorem sendM_fold_offline (evs : List (String × GoValue)) (p : PlayerM)
    (hs : p.sockets = [])
    (henc : ∀ e ∈ evs, (marshalEventData e.1 e.2).isSome = true) :
    ((evs.foldl (fun q e => (q.sendM e.1 e.2).1) p).sockets = [] ∧
      (evs.foldl (fun q e => (q.sendM e.1 e.2).1) p).socketCount = p.socketCount) ∧
    (evs.foldl (fun q e => (q.sendM e.1 e.2).1) p).missedEvents =
      p.missedEvents ++ evs.filterMap (fun e => marshalEventData e.1 e.2) := by
  induction evs generalizing p with
  | nil => simp [hs]
  | cons e t ih =>
    obtain ⟨frame, hf⟩ := Option.isSome_iff_exists.mp (henc e (List.mem_cons_self e t))
    have hstep := sendM_offline_step p e.1 e.2 frame hs hf
    have ht := ih { p with missedEvents := p.missedEvents ++ [frame] } (by simp [hs])
      (fun x hx => henc x (List.mem_cons_of_mem e hx))
    simp only [List.foldl_cons, List.filterMap_cons, hstep, hf]
    refine ⟨ht.1, ?_⟩
    rw [ht.2]
    simp

theorem drainInto_cons (sk : GameSocket) (e : Bytes) (t : List Bytes) :
    drainInto sk (e :: t) = drainInto ((sendFrame sk e).1) t := rfl

theorem drainInto_ok (events : List Bytes) (sk : GameSocket)
    (hw : sk.conn.writeFails = false) (hc : sk.conn.closed = false) :
    (drainInto sk events).conn.written = sk.conn.written ++ events ∧
    (drainInto sk events).id = sk.id := by
  induction events generalizing sk with
  | nil => simp [drainInto]
  | cons e t ih =>
    have hs1 : (sendFrame sk e).1.conn.written = sk.conn.written ++ [e] := by
      simp [sendFrame, hw, hc]
    have hs2 : (sendFrame sk e).1.conn.writeFails = false := by
      simp [sendFrame, hw, hc]
    have hs3 : (sendFrame sk e).1.conn.closed = false := by
      simp [sendFrame, hw, hc]
    have hs4 : (sendFrame sk e).1.id = sk.id := by
      simp [sendFrame, hw, hc]
    have ht := ih ((sendFrame sk e).1) hs2 hs3
    rw [drainInto_cons, ht.1, ht.2, hs1, hs4]
    simp

/-- Claim C2: a Player with zero attached sockets buffers every event sent
through `Player.Send` (fully encoded, in order) in `missedEvents`; the next
successful `addSocket` on a healthy connection delivers exactly those frames
to the new socket in send order and clears the buffer. -/
theorem player_reconnect_delivery (cfg : ServerConfig) (p : PlayerM)
    (evs : List (String × GoValue)) (sk : GameSocket)
    (hs : p.sockets = []) (hm : p.missedEvents = [])
    (henc : ∀ e ∈ evs, (marshalEventData e.1 e.2).isSome = true)
    (hcap : ¬ (cfg.maxSocketsPerPlayer > 0 ∧ p.socketCount ≥ cfg.maxSocketsPerPlayer))
    (hwf : sk.conn.writeFails = false) (hcl : sk.conn.closed = false)
    (hw : sk.conn.written = []) :
    ((evs.foldl (fun q e => (q.sendM e.1 e.2).1) p).missedEvents =
      evs.filterMap (fun e => marshalEventData e.1 e.2)) ∧
    (addSocketM cfg (evs.foldl (fun q e => (q.sendM e.1 e.2).1) p) sk).2 = none ∧
    ((alookup (addSocketM cfg (evs.foldl (fun q e => (q.sendM e.1 e.2).1) p) sk).1.sockets
        sk.id).map (fun s => s.conn.written) =
      some (evs.filterMap (fun e => marshalEventData e.1 e.2))) ∧
    (addSocketM cfg (evs.foldl (fun q e => (q.sendM e.1 e.2).1) p) sk).1.missedEvents = [] := by
  obtain ⟨⟨hqs, hqc⟩, hqm⟩ := sendM_fold_offline evs p hs henc
  rw [hm] at hqm
  simp only [List.nil_append] at hqm
  have hcap2 : ¬ (cfg.maxSocketsPerPlayer > 0 ∧
      (evs.foldl (fun q e => (q.sendM e.1 e.2).1) p).socketCount ≥ cfg.maxSocketsPerPlayer) := by
    rw [hqc]; exact hcap
  have hdrain := drainInto_ok ((evs.foldl (fun q e => (q.sendM e.1 e.2).1) p).missedEvents)
    sk hwf hcl
  refine ⟨hqm, ?_, ?_, ?_⟩
  · simp [addSocketM, hcap2]
  · by_cases hlen : (evs.foldl (fun q e => (q.sendM e.1 e.2).1) p).missedEvents.length > 0
    · rw [hqm] at hdrain hlen
      simp [addSocketM, hcap2, hlen, hqs, ainsert, alookup, hqm, hdrain.1, hw]
    · have hnil : (evs.foldl (fun q e => (q.sendM e.1 e.2).1) p).missedEvents = [] := by
        cases hx : (evs.foldl (fun q e => (q.sendM e.1 e.2).1) p).missedEvents with
        | nil => rfl
        | cons a t => rw [hx] at hlen; simp at hlen
      rw [hnil] at hqm
      simp [addSocketM, hcap2, hlen, hqs, ainsert, alookup, hw, ← hqm]
  · by_cases hlen : (evs.foldl (fun q e => (q.sendM e.1 e.2).1) p).missedEvents.length > 0
    · simp [addSocketM, hcap2, hlen]
    · have hnil : (evs.foldl (fun q e => (q.sendM e.1 e.2).1) p).missedEvents = [] := by
        cases hx : (evs.foldl (fun q e => (q.sendM e.1 e.2).1) p).missedEvents with
        | nil => rfl
        | cons a t => rw [hx] at hlen; simp at hlen
      simp [addSocketM, hcap2, hlen, hnil]

def cfgZero : ServerConfig :=
  { maxSocketsPerPlayer := 0, maxPlayersPerGame := 0, maxSpectatorsPerGame := 0,
    maxGames := 0, deleteInactiveGameDelay := 0, kickInactivePlayerDelay := 0 }

def offlinePlayer : PlayerM :=
  { id := "p2", username := "bob", secret := "sec2", sockets := [],
    socketCount := 0, lastConnection := 0, missedEvents := [] }

def freshSocket : GameSocket :=
  { id := "s9", conn := { writeFails := false, written := [], attempted := [], closed := false },
    done := ChanSig.unmade }

def offlineEvs : List (String × GoValue) :=
  [("x", GoValue.vnat 1), ("y", GoValue.vnat 2)]

/-- Claim C2 witness: two events sent to an offline player are buffered and
delivered in order, exactly once, to the next attached socket, leaving the
buffer empty. -/
theorem player_reconnect_delivery_witness :
    (∀ e ∈ offlineEvs, (marshalEventData e.1 e.2).isSome = true) ∧
    ((offlineEvs.foldl (fun q e => (q.sendM e.1 e.2).1) offlinePlayer).missedEvents =
      offlineEvs.filterMap (fun e => marshalEventData e.1 e.2)) ∧
    (addSocketM cfgZero (offlineEvs.foldl (fun q e => (q.sendM e.1 e.2).1) offlinePlayer)
      freshSocket).2 = none ∧
    ((alookup (addSocketM cfgZero
          (offlineEvs.foldl (fun q e => (q.sendM e.1 e.2).1) offlinePlayer)
          freshSocket).1.sockets freshSocket.id).map (fun s => s.conn.written) =
      some (offlineEvs.filterMap (fun e => marshalEventData e.1 e.2))) ∧
    (addSocketM cfgZero (offlineEvs.foldl (fun q e => (q.sendM e.1 e.2).1) offlinePlayer)
      freshSocket).1.missedEvents = [] :=
  ⟨by decide, player_reconnect_delivery cfgZero offlinePlayer offlineEvs freshSocket rfl rfl
    (by decide) (by decide) rfl rfl rfl⟩

/-- Model of `CommandWrapper` (event.go): the originating player (a nil
pointer in the zero value, hence `Option`) and the command. -/
structure CommandWrapperM where
  origin : Option String
  cmd : CommandM
deriving DecidableEq

/-- The zero value `CommandWrapper\x7b\x7d` returned by `NextCommand` when no
command is available. -/
def commandWrapperZero : CommandWrapperM :=
  { origin := none, cmd := { name := [], data := [] } }

/-- Model of the buffered channel `cmdChan chan CommandWrapper`: the queued
elements in FIFO order and whether the channel has been closed.  (The
capacity bound of 10 only matters for blocking senders, which the claims do
not quantify over.) -/
structure CmdChan where
  buffer : List CommandWrapperM
  closedChan : Bool
deriving DecidableEq

/-- Model of `Game` (the Game file, current revision): identity, command
channel, visibility, optional join secret, players, spectators, running flag
and the `markedAsEmpty` timestamp (`none` models the zero `time.Time\x7b\x7d`,
`some t` a time stamped by `time.Now()`). -/
structure GameM where
  id : String
  cmdChan : CmdChan
  publicG : Bool
  joinSecret : String
  players : List (String × PlayerM)
  spectators : List (String × GameSocket)
  running : Bool
  markedAsEmpty : Option Nat
deriving DecidableEq

/-- Models `newGame` (the Game file): empty players and spectators, a fresh
open command channel, `running = true`, zero `markedAsEmpty` and no join
secret (the join secret is assigned afterwards by `Server.createGame`). -/
def newGameM (id : String) (publicG : Bool) : GameM :=
  { id := id, cmdChan := { buffer := [], closedChan := false }, publicG := publicG,
    joinSecret := "", players := [], spectators := [], running := true,
    markedAsEmpty := none }

/-- Models `Game.NextCommand`: a `select` with a receive case and a
`default` case.  A buffered command is returned with `ok = true`; a closed
drained channel is ready and yields the zero wrapper with `ok = false`; an
open empty channel hits `default`, also yielding the zero wrapper with
`ok = false`. -/
def nextCommandM (g : GameM) : (CommandWrapperM × Bool) × GameM :=
  match g.cmdChan.buffer with
  | w :: rest => ((w, true), { g with cmdChan := { g.cmdChan with buffer := rest } })
  | [] =>
    if g.cmdChan.closedChan then ((commandWrapperZero, false), g)
    else ((commandWrapperZero, false), g)

/-- Models `Game.WaitForNextCommand`: a blocking receive.  `none` models the
blocked call (open empty channel, no sender in the model); a closed drained
channel yields the zero wrapper with `ok = false`. -/
def waitForNextCommandM (g : GameM) : Option ((CommandWrapperM × Bool) × GameM) :=
  match g.cmdChan.buffer with
  | w :: rest => some ((w, true), { g with cmdChan := { g.cmdChan with buffer := rest } })
  | [] =>
    if g.cmdChan.closedChan then some ((commandWrapperZero, false), g) else none

/-- A freshly joined player as built by `Game.join`: fresh UUID and secret
(passed in as parameters since they come from effectful generators), empty
sockets and missed events. -/
def newPlayerM (pid username secret : String) : PlayerM :=
  { id := pid, username := username, secret := secret, sockets := [],
    socketCount := 0, lastConnection := 0, missedEvents := [] }

/-- Models `Game.join` (the Game file): reject a wrong join secret on a
protected game, then the player cap; otherwise clear `markedAsEmpty`, create
the player and install it.  The `OnPlayerJoined` hook and logging are
elided. -/
def gameJoinM (cfg : ServerConfig) (g : GameM) (username joinSecret : String)
    (newId newSecret : String) : GameM × Except String (String × String) :=
  if g.joinSecret ≠ "" ∧ g.joinSecret ≠ joinSecret then
    (g, Except.error "wrong join secret")
  else if cfg.maxPlayersPerGame > 0 ∧ g.players.length ≥ cfg.maxPlayersPerGame then
    (g, Except.error "max player count reached")
  else
    let player := newPlayerM newId username newSecret
    ({ g with markedAsEmpty := none, players := ainsert g.players newId player },
      Except.ok (newId, newSecret))

/-- Models `Game.leave` (the Game file) at the game level: remove the player
from the registry and, if the game now has zero players, stamp
`markedAsEmpty = now`.  The `OnPlayerLeft` hook, logging and the teardown of
the removed player's own sockets are elided (they do not touch the game's
`players` map or `markedAsEmpty`). -/
def leaveM (g : GameM) (pid : String) (now : Nat) : GameM :=
  let players2 := aerase g.players pid
  { g with
      players := players2
      markedAsEmpty := if players2.length = 0 then some now else g.markedAsEmpty }

/-- Models `Game.Close` (the Game file): a second call returns nil at once;
otherwise clear `running`, deregister from the server (modelled at the
server level), `leave` every remaining player, and close the command
channel.  Logging and `Log.Close` are elided. -/
def closeGameM (g : GameM) (now : Nat) : GameM × Option String :=
  if ¬ g.running then (g, none)
  else
    let g1 := { g with running := false }
    let g2 := (g.players.map Prod.fst).foldl (fun acc pid => leaveM acc pid now) g1
    ({ g2 with cmdChan := { g2.cmdChan with closedChan := true } }, none)

/-- Models `Game.addSpectator`: reject at the spectator cap, otherwise
insert.  The `OnSpectatorConnected` hook is elided. -/
def addSpectatorM (cfg : ServerConfig) (g : GameM) (sk : GameSocket) :
    GameM × Option String :=
  if cfg.maxSpectatorsPerGame > 0 ∧ g.spectators.length ≥ cfg.maxSpectatorsPerGame then
    (g, some "max spectator count reached")
  else ({ g with spectators := ainsert g.spectators sk.id sk }, none)

/-- Models `Game.removeSpectator`. -/
def removeSpectatorM (g : GameM) (sid : String) : GameM :=
  { g with spectators := aerase g.spectators sid }

/-- The states a single `Game` can reach through the operations of the
source: creation (`newGame` followed by the optional join-secret assignment
in `Server.createGame`), `join`, `leave` (also used by the kick path and by
`Close`), the reaper stamping `markedAsEmpty` on an empty game
(`Server.removeInactiveGamesPlayers`), `Close`, command enqueue
(`Player.handleCommand`, only on an open channel — a send on a closed
channel would panic), `NextCommand` dequeue, spectator changes, and
content-only mutation of an existing player entry (socket attach/detach and
sends, which leave the key set unchanged). -/
inductive ReachableGame (cfg : ServerConfig) : GameM → Prop
  | created (id : String) (publicG : Bool) (joinSecret : String) :
      ReachableGame cfg { newGameM id publicG with joinSecret := joinSecret }
  | joined (g : GameM) (username js newId newSecret : String)
      (hg : ReachableGame cfg g) :
      ReachableGame cfg (gameJoinM cfg g username js newId newSecret).1
  | left (g : GameM) (pid : String) (now : Nat) (hg : ReachableGame cfg g) :
      ReachableGame cfg (leaveM g pid now)
  | reaperMarked (g : GameM) (now : Nat) (hg : ReachableGame cfg g)
      (hdel : cfg.deleteInactiveGameDelay > 0) (hcount : g.players.length = 0)
      (hunset : g.markedAsEmpty = none) :
      ReachableGame cfg { g with markedAsEmpty := some now }
  | closed (g : GameM) (now : Nat) (hg : ReachableGame cfg g) :
      ReachableGame cfg (closeGameM g now).1
  | commandEnqueued (g : GameM) (w : CommandWrapperM) (hg : ReachableGame cfg g)
      (hopen : g.cmdChan.closedChan = false) :
      ReachableGame cfg { g with cmdChan := { g.cmdChan with buffer := g.cmdChan.buffer ++ [w] } }
  | commandTaken (g : GameM) (hg : ReachableGame cfg g) :
      ReachableGame cfg (nextCommandM g).2
  | spectatorAdded (g : GameM) (sk : GameSocket) (hg : ReachableGame cfg g) :
      ReachableGame cfg (addSpectatorM cfg g sk).1
  | spectatorRemoved (g : GameM) (sid : String) (hg : ReachableGame cfg g) :
      ReachableGame cfg (removeSpectatorM g sid)
  | playerStateChanged (g : GameM) (pid : String) (p2 : PlayerM)
      (hg : ReachableGame cfg g) (hmem : alookup g.players pid ≠ none) :
      ReachableGame cfg { g with players := ainsert g.players pid p2 }

/-- The invariants of a reachable game used by claims C4 and C5: a set
`markedAsEmpty` implies an empty player map, and the command channel is
closed exactly when the game is no longer running. -/
def gameInv (g : GameM) : Prop :=
  (g.markedAsEmpty.isSome = true → g.players = []) ∧
  (g.cmdChan.closedChan = !g.running)

theorem leaveM_fold_fields (now : Nat) (l : List (String × PlayerM)) :
    ∀ g : GameM, g.players = l →
      ((l.map Prod.fst).foldl (fun acc pid => leaveM acc pid now) g).players = [] ∧
      ((l.map Prod.fst).foldl (fun acc pid => leaveM acc pid now) g).cmdChan = g.cmdChan ∧
      ((l.map Prod.fst).foldl (fun acc pid => leaveM acc pid now) g).running = g.running := by
  induction l with
  | nil =>
    intro g hg
    exact ⟨hg, rfl, rfl⟩
  | cons kv t ih =>
    obtain ⟨k, v⟩ := kv
    intro g hg
    simp only [List.map_cons, List.foldl_cons]
    have hstep : (leaveM g k now).players = t := by
      simp [leaveM, hg, aerase]
    have hrest := ih (leaveM g k now) hstep
    refine ⟨hrest.1, ?_, ?_⟩
    · rw [hrest.2.1]; simp [leaveM]
    · rw [hrest.2.2]; simp [leaveM]

theorem reachable_inv (cfg : ServerConfig) (g : GameM) (h : ReachableGame cfg g) :
    gameInv g := by
  induction h with
  | created id publicG joinSecret => simp [gameInv, newGameM]
  | joined g username js newId newSecret hg ih =>
    by_cases h1 : g.joinSecret ≠ "" ∧ g.joinSecret ≠ js
    · simpa [gameJoinM, h1] using ih
    · by_cases h2 : cfg.maxPlayersPerGame > 0 ∧ g.players.length ≥ cfg.maxPlayersPerGame
      · simpa [gameJoinM, h1, h2] using ih
      · refine ⟨?_, ?_⟩
        · intro hsome
          exact absurd hsome (by simp [gameJoinM, h1, h2])
        · simpa [gameJoinM, h1, h2] using ih.2
  | left g pid now hg ih =>
    constructor
    · intro hsome
      by_cases hz : (aerase g.players pid).length = 0
      · exact List.length_eq_zero.mp hz
      · exfalso
        simp only [leaveM] at hsome
        rw [if_neg hz] at hsome
        have hempty := ih.1 hsome
        rw [hempty] at hz
        simp [aerase] at hz
    · simpa [leaveM] using ih.2
  | reaperMarked g now hg hdel hcount hunset ih =>
    constructor
    · intro _
      exact List.length_eq_zero.mp hcount
    · simpa using ih.2
  | closed g now hg ih =>
    by_cases hr : g.running = true
    · have hfold := leaveM_fold_fields now g.players { g with running := false } rfl
      simp only [closeGameM, hr, not_true, if_neg (not_not_intro hr)]
      refine ⟨fun _ => hfold.1, ?_⟩
      simp [hfold.2.2]
    · have hrf : g.running = false := by simpa using hr
      simpa [closeGameM, hrf] using ih
  | commandEnqueued g w hg hopen ih =>
    exact ⟨ih.1, by simpa using ih.2⟩
  | commandTaken g hg ih =>
    cases hb : g.cmdChan.buffer with
    | cons w rest =>
      simp only [nextCommandM, hb]
      exact ⟨ih.1, by simpa using ih.2⟩
    | nil =>
      by_cases hc : g.cmdChan.closedChan <;> simpa [nextCommandM, hb, hc] using ih
  | spectatorAdded g sk hg ih =>
    by_cases hcap : cfg.maxSpectatorsPerGame > 0 ∧ g.spectators.length ≥ cfg.maxSpectatorsPerGame
    · simpa [addSpectatorM, hcap] using ih
    · simpa [addSpectatorM, hcap] using ih
  | spectatorRemoved g sid hg ih =>
    simpa [removeSpectatorM] using ih
  | playerStateChanged g pid p2 hg hmem ih =>
    constructor
    · intro hsome
      exfalso
      have hempty := ih.1 hsome
      rw [hempty] at hmem
      exact hmem rfl
    · simpa using ih.2

def exceptIsOk {e a : Type} : Except e a → Bool
  | Except.ok _ => true
  | Except.error _ => false

/-- Claim C4 counterexample: a freshly created game is a reachable state
with zero players and `markedAsEmpty` unset (the zero `time.Time\x7b\x7d`),
so "markedEmptyAt is set iff the game has zero players" fails on it. -/
theorem marked_empty_iff_counterexample :
    ReachableGame cfgZero (newGameM "g1" true) ∧
    ¬ (((newGameM "g1" true).markedAsEmpty.isSome = true) ↔
      (newGameM "g1" true).players = []) := by
  constructor
  · exact @ReachableGame.created cfgZero "g1" true ""
  · decide

/-- Claim C4 (amended): in every reachable game state, a set `markedEmptyAt`
implies zero players, and every successful join clears `markedEmptyAt`; the
converse direction (zero players implies set) fails for a freshly created
game before its first leave or reaper tick (see the counterexample). -/
theorem marked_empty_invariant (cfg : ServerConfig) (g : GameM)
    (hg : ReachableGame cfg g) (username js newId newSecret : String) :
    (g.markedAsEmpty.isSome = true → g.players = []) ∧
    (exceptIsOk (gameJoinM cfg g username js newId newSecret).2 = true →
      (gameJoinM cfg g username js newId newSecret).1.markedAsEmpty = none) := by
  refine ⟨(reachable_inv cfg g hg).1, ?_⟩
  intro hok
  by_cases h1 : g.joinSecret ≠ "" ∧ g.joinSecret ≠ js
  · simp [gameJoinM, h1, exceptIsOk] at hok
  · by_cases h2 : cfg.maxPlayersPerGame > 0 ∧ g.players.length ≥ cfg.maxPlayersPerGame
    · simp [gameJoinM, h1, h2, exceptIsOk] at hok
    · simp [gameJoinM, h1, h2]

/-- Claim C4 witness: the amended invariant instantiated at the freshly
created reachable game and a concrete successful join. -/
theorem marked_empty_invariant_witness :
    ((newGameM "g1" true).markedAsEmpty.isSome = true → (newGameM "g1" true).players = []) ∧
    (exceptIsOk (gameJoinM cfgZero (newGameM "g1" true) "alice" "" "pid1" "sec1").2 = true →
      (gameJoinM cfgZero (newGameM "g1" true) "alice" "" "pid1" "sec1").1.markedAsEmpty = none) :=
  marked_empty_invariant cfgZero (newGameM "g1" true)
    (@ReachableGame.created cfgZero "g1" true "") "alice" "" "pid1" "sec1"

/-- Claim C5 counterexample: a reachable game that is open and running with
an empty command queue, on which `NextCommand` already returns `ok = false`
(the `select` default branch) — `ok = false` does not mean the game is
closed. -/
theorem next_command_ok_false_while_open :
    ReachableGame cfgZero (newGameM "g1" true) ∧
    (newGameM "g1" true).running = true ∧
    (newGameM "g1" true).cmdChan.closedChan = false ∧
    (nextCommandM (newGameM "g1" true)).1 = (commandWrapperZero, false) := by
  refine ⟨@ReachableGame.created cfgZero "g1" true "", by decide, by decide, by decide⟩

/-- Claim C5 (amended): for a reachable game, the blocking
`WaitForNextCommand` returns `ok = false` only when the command queue is
drained and the game is closed (channel closed, `running = false`); the
non-blocking `NextCommand`, in contrast, returns `ok = false` whenever the
queue is momentarily empty, whether or not the game is still open. -/
theorem wait_next_command_ok_false_means_closed (cfg : ServerConfig) (g : GameM)
    (hg : ReachableGame cfg g) (r : (CommandWrapperM × Bool) × GameM) :
    (waitForNextCommandM g = some r → r.1.2 = false →
      g.cmdChan.buffer = [] ∧ g.cmdChan.closedChan = true ∧ g.running = false) ∧
    (g.cmdChan.buffer = [] → (nextCommandM g).1.2 = false) := by
  have hinv := (reachable_inv cfg g hg).2
  constructor
  · intro hw hfalse
    cases hb : g.cmdChan.buffer with
    | cons w rest =>
      rw [waitForNextCommandM, hb] at hw
      have := hw.symm
      simp only [Option.some.injEq] at hw
      rw [← hw] at hfalse
      simp at hfalse
    | nil =>
      by_cases hc : g.cmdChan.closedChan = true
      · refine ⟨rfl, hc, ?_⟩
        rw [hc] at hinv
        cases hrun : g.running
        · rfl
        · rw [hrun] at hinv; simp at hinv
      · rw [waitForNextCommandM, hb, if_neg hc] at hw
        exact absurd hw (by simp)
  · intro hb
    simp [nextCommandM, hb]

def gClosed : GameM := (closeGameM (newGameM "g1" true) 7).1

/-- Claim C5 witness: the amended statement instantiated at a reachable
closed game with drained queue, where `WaitForNextCommand` returns the zero
wrapper with `ok = false`. -/
theorem wait_next_command_ok_false_means_closed_witness :
    ((waitForNextCommandM gClosed = some ((commandWrapperZero, false), gClosed) →
      (((commandWrapperZero, false), gClosed) : (CommandWrapperM × Bool) × GameM).1.2 = false →
      gClosed.cmdChan.buffer = [] ∧ gClosed.cmdChan.closedChan = true ∧
        gClosed.running = false) ∧
    (gClosed.cmdChan.buffer = [] → (nextCommandM gClosed).1.2 = false)) ∧
    waitForNextCommandM gClosed = some ((commandWrapperZero, false), gClosed) :=
  ⟨wait_next_command_ok_false_means_closed cfgZero gClosed
    (ReachableGame.closed (newGameM "g1" true) 7 (@ReachableGame.created cfgZero "g1" true ""))
    ((commandWrapperZero, false), gClosed), by decide⟩

/-- Model of `Server` (the Server file): the registry of games and the
configuration.  The upgrader, logger, reaper ticker and the registered
game-logic function are elided. -/
structure ServerM where
  games : List (String × GameM)
  config : ServerConfig
deriving DecidableEq

/-- Models `Server.getGame`: readers-guarded registry lookup. -/
def getGameM (s : ServerM) (gid : String) : Option GameM := alookup s.games gid

/-- Models `Server.createGame` (the Server file): under the registry lock,
reject when `MaxGames > 0` and the registry already holds that many games;
otherwise create the game with a fresh UUID (passed in), assign a fresh join
secret iff `protected`, register it, and return the id and join secret.  The
goroutine running the author's game function is elided. -/
def createGameM (s : ServerM) (publicG protectedB : Bool) (newId newSecret : String) :
    ServerM × Except String (String × String) :=
  if s.config.maxGames > 0 ∧ s.games.length ≥ s.config.maxGames then
    (s, Except.error "max game count reached")
  else
    let g0 := newGameM newId publicG
    let g := if protectedB then { g0 with joinSecret := newSecret } else g0
    ({ s with games := ainsert s.games newId g }, Except.ok (newId, g.joinSecret))

/-- HTTP responses produced by the modelled endpoints: a status code with a
plain-text body, the 201 JSON bodies of game/player creation, or a
successful upgrade. -/
inductive HttpOut
  | resp (status : Nat) (body : String)
  | createdGame (gameId joinSecret : String)
  | createdPlayer (playerId playerSecret : String)
  | upgraded
deriving DecidableEq

/-- Models `createGameEndpoint` (api.go) after a successfully decoded
request body: any `createGame` error is reported as 403 with the body
"max game count reached"; success is 201 with the id and optional join
secret. -/
def createGameEndpointM (s : ServerM) (publicG protectedB : Bool)
    (newId newSecret : String) : HttpOut × ServerM :=
  match createGameM s publicG protectedB newId newSecret with
  | (_, Except.error _) => (HttpOut.resp 403 "max game count reached", s)
  | (s2, Except.ok pr) => (HttpOut.createdGame pr.1 pr.2, s2)

/-- Models `createPlayerEndpoint` (api.go): 400 for an empty username (or
undecodable body, elided), 404 for an unknown game, 403 with `err.Error()`
when `game.join` fails, else 201 with the new player id and secret.  The
mutated game is visible in the registry through the game pointer; the model
writes it back. -/
def createPlayerEndpointM (s : ServerM) (gameId username joinSecret : String)
    (newId newSecret : String) : HttpOut × ServerM :=
  if username = "" then (HttpOut.resp 400 "invalid request body", s)
  else
    match getGameM s gameId with
    | none => (HttpOut.resp 404 "game not found", s)
    | some g =>
      match gameJoinM s.config g username joinSecret newId newSecret with
      | (_, Except.error e) => (HttpOut.resp 403 e, s)
      | (g2, Except.ok pr) =>
        (HttpOut.createdPlayer pr.1 pr.2, { s with games := ainsert s.games gameId g2 })

/-- Go string comparison of `a != b` at byte level: equal lengths are
required first, then bytes are compared and the comparison stops at the
first mismatching byte.  The second component counts the byte comparisons
performed — the cost model for the constant-time claim. -/
def goCharsEq : Bytes → Bytes → Bool × Nat
  | [], [] => (true, 0)
  | [], _ :: _ => (false, 0)
  | _ :: _, [] => (false, 0)
  | a :: as, b :: bs =>
    if a = b then
      let r := goCharsEq as bs
      (r.1, r.2 + 1)
    else (false, 1)

/-- Models the Go string equality used by `player.Secret != playerSecret` in
`connectEndpoint`: a plain `==` that short-circuits at the first differing
byte (not a constant-time comparison). -/
def goStringEq (a b : String) : Bool :=
  if a.data.length = b.data.length then (goCharsEq a.data b.data).1 else false

/-- Number of byte comparisons performed by `goStringEq`. -/
def goStringEqCost (a b : String) : Nat :=
  if a.data.length = b.data.length then (goCharsEq a.data b.data).2 else 0

/-- Models `connectEndpoint` (api.go): 400 when `player_secret` is missing,
404 for unknown game or player, 403 on a secret mismatch (plain Go `!=`),
otherwise upgrade, attach the socket to the player (403 if the socket cap
rejects it) and fire the hook (elided). -/
def connectEndpointM (s : ServerM) (gameId playerId playerSecret newSocketId : String) :
    HttpOut × ServerM :=
  if playerSecret = "" then
    (HttpOut.resp 400 "missing `player_secret` query parameter", s)
  else
    match getGameM s gameId with
    | none => (HttpOut.resp 404 "game not found", s)
    | some g =>
      match alookup g.players playerId with
      | none => (HttpOut.resp 404 "player not found", s)
      | some p =>
        if goStringEq p.secret playerSecret = false then
          (HttpOut.resp 403 "wrong player secret", s)
        else
          let conn0 : Conn :=
            { writeFails := false, written := [], attempted := [], closed := false }
          let sk : GameSocket := { id := newSocketId, conn := conn0, done := ChanSig.unmade }
          match addSocketM s.config p sk with
          | (_, some e) => (HttpOut.resp 403 e, s)
          | (p2, none) =>
            let g2 := { g with players := ainsert g.players playerId p2 }
            (HttpOut.upgraded, { s with games := ainsert s.games gameId g2 })

/-- Claim C6: joining a protected game with a wrong `join_secret` returns
the "wrong join secret" error and leaves the game unchanged — no player is
created and the fresh id/secret are unused; at the HTTP boundary the
endpoint returns 403 with that reason and the server registry is
unchanged. -/
theorem join_wrong_secret_rejected (s : ServerM) (gameId username supplied : String)
    (newId newSecret : String) (g : GameM)
    (hgame : getGameM s gameId = some g)
    (hprot : g.joinSecret ≠ "") (hwrong : supplied ≠ g.joinSecret)
    (huser : username ≠ "") :
    gameJoinM s.config g username supplied newId newSecret =
      (g, Except.error "wrong join secret") ∧
    createPlayerEndpointM s gameId username supplied newId newSecret =
      (HttpOut.resp 403 "wrong join secret", s) := by
  have hcond : g.joinSecret ≠ "" ∧ g.joinSecret ≠ supplied :=
    ⟨hprot, fun he => hwrong he.symm⟩
  constructor
  · simp [gameJoinM, hcond]
  · simp [createPlayerEndpointM, huser, hgame, gameJoinM, hcond]

def protGame : GameM := { newGameM "g2" true with joinSecret := "topsecret" }

def protServer : ServerM := { games := [("g2", protGame)], config := cfgZero }

/-- Claim C6 witness: the protected game with join secret "topsecret"
rejects the supplied secret "wrong" with 403 and an unchanged registry. -/
theorem join_wrong_secret_rejected_witness :
    getGameM protServer "g2" = some protGame ∧
    (gameJoinM protServer.config protGame "bob" "wrong" "pid9" "sec9" =
      (protGame, Except.error "wrong join secret") ∧
    createPlayerEndpointM protServer "g2" "bob" "wrong" "pid9" "sec9" =
      (HttpOut.resp 403 "wrong join secret", protServer)) :=
  ⟨by decide,
    join_wrong_secret_rejected protServer "g2" "bob" "wrong" "pid9" "sec9" protGame
      (by decide) (by decide) (by decide) (by decide)⟩

/-- Claim C7: with `MaxGames > 0` and the registry holding exactly
`MaxGames` games, `createGame` fails with "max game count reached" and
registers nothing; the endpoint returns 403 with that reason; with
`MaxGames = 0` creation is never rejected for capacity. -/
theorem create_game_cap (s sFree : ServerM) (publicG protectedB : Bool)
    (newId newSecret : String)
    (hmax : s.config.maxGames > 0) (hfull : s.games.length = s.config.maxGames)
    (hfree : sFree.config.maxGames = 0) :
    createGameM s publicG protectedB newId newSecret =
      (s, Except.error "max game count reached") ∧
    createGameEndpointM s publicG protectedB newId newSecret =
      (HttpOut.resp 403 "max game count reached", s) ∧
    exceptIsOk (createGameM sFree publicG protectedB newId newSecret).2 = true := by
  have hcond : s.config.maxGames > 0 ∧ s.games.length ≥ s.config.maxGames :=
    ⟨hmax, hfull.ge⟩
  have hncond : ¬ (sFree.config.maxGames > 0 ∧ sFree.games.length ≥ sFree.config.maxGames) := by
    simp [hfree]
  refine ⟨?_, ?_, ?_⟩
  · simp [createGameM, hcond]
  · simp [createGameEndpointM, createGameM, hcond]
  · simp [createGameM, hncond, exceptIsOk]

def capServer : ServerM :=
  { games := [("g1", newGameM "g1" true)], config := { cfgZero with maxGames := 1 } }

def freeServer : ServerM := { games := [], config := cfgZero }

/-- Claim C7 witness: a server at its cap of one game rejects the next
creation with 403; a server with `MaxGames = 0` accepts it. -/
theorem create_game_cap_witness :
    (capServer.config.maxGames > 0 ∧ capServer.games.length = capServer.config.maxGames ∧
      freeServer.config.maxGames = 0) ∧
    (createGameM capServer true false "g9" "sec9" =
      (capServer, Except.error "max game count reached") ∧
    createGameEndpointM capServer true false "g9" "sec9" =
      (HttpOut.resp 403 "max game count reached", capServer) ∧
    exceptIsOk (createGameM freeServer true false "g9" "sec9").2 = true) :=
  ⟨⟨by decide, by decide, by decide⟩,
    create_game_cap capServer freeServer true false "g9" "sec9"
      (by decide) (by decide) (by decide)⟩

def secret64 : String := String.mk (List.replicate 64 'a')

def secretDiff0 : String := String.mk ('b' :: List.replicate 63 'a')

def secretDiff63 : String := String.mk (List.replicate 63 'a' ++ ['b'])

def connPlayer : PlayerM := newPlayerM "p1" "alice" secret64

def connGame : GameM := { newGameM "g1" true with players := [("p1", connPlayer)] }

def connServer : ServerM := { games := [("g1", connGame)], config := cfgZero }

/-- Claim C1: a supplied player secret differing from the stored one in any
single byte is rejected with 403 — but the comparison is the plain Go `!=`,
which stops at the first differing byte: its cost is 1 comparison when the
first byte differs and 64 when only the last byte differs, so the compare
time depends on the position of the difference, refuting the constant-time
part of the claim (an earlier revision used `subtle.ConstantTimeCompare`). -/
theorem connect_wrong_secret_403_not_constant_time :
    (connectEndpointM connServer "g1" "p1" secretDiff0 "s1").1 =
      HttpOut.resp 403 "wrong player secret" ∧
    (connectEndpointM connServer "g1" "p1" secretDiff63 "s1").1 =
      HttpOut.resp 403 "wrong player secret" ∧
    goStringEqCost secret64 secretDiff0 = 1 ∧
    goStringEqCost secret64 secretDiff63 = 64 ∧
    (1 : Nat) ≠ 64 := by
  refine ⟨by decide, by decide, by decide, by decide, by decide⟩
